import Mathlib

/-!
# Verification of the parasync synchronization engine

A shallow embedding, in Lean 4, of the parts of the `parasync` repository
that its specification makes claims about:

* `util.py` — `CmdResult`, `require_cmd`;
* `core.py` — `_run`, `push`, `install_pubkey` (as traces of the transport
  calls they issue and the remote-command effects they request);
* `gui.py` — `SyncWorker._run_cmd`, `_do_full_setup`, `_do_push`,
  `_do_pull`, `_do_sync`, and `DiffPreviewDialog`'s diff computation;
* `config.py` — `Profile`, `AppConfig`, `save_config`, `load_config`
  (at the level of the JSON value tree they write and read).

External effects (subprocess execution, the filesystem, the remote side)
are modelled by explicit oracle parameters: each embedded operation takes
the outcomes of its external calls as inputs and returns the list of
transport calls it issues together with the `(success, message)` outcome
it emits, mirroring the Python control flow line by line.  An exception
that a Python function lets escape is modelled as an `Except.error`
result, while a caught exception stays inside the normal return value.
-/

namespace ParaSync

/-! ## Transport layer: `util.py` and the two command runners -/

/-- `util.py` (`CmdResult`): exit status plus captured output of one
external command invocation. -/
structure CmdResult where
  returncode : Int
  stdout : String
  stderr : String
deriving DecidableEq, Repr

/-- The possible outcomes of one `subprocess.run` call: normal
completion, a `subprocess.TimeoutExpired` exception, or any other
exception (e.g. `FileNotFoundError` when the program is absent). -/
inductive RunEvent where
  | completed (returncode : Int) (stdout stderr : String)
  | timedOut
  | exnRaised (msg : String)
deriving DecidableEq, Repr

/-- `gui.py` (`SyncWorker._run_cmd`): wraps `subprocess.run` and catches
`TimeoutExpired` and every other exception, returning the triple
`(ok, stdout, stderr)`.  Totality of this function is the model of
"never raises". -/
def runCmd : RunEvent → Bool × String × String
  | .completed rc out err => (rc == 0, out, err)
  | .timedOut => (false, "", "Command timed out")
  | .exnRaised m => (false, "", m)

/-- `core.py` (`_run`): calls `subprocess.run` with a timeout but catches
nothing, so a `TimeoutExpired` (or any other exception) propagates to the
caller; the propagated exception is modelled as `Except.error`. -/
def coreRun : RunEvent → Except String CmdResult
  | .completed rc out err => .ok ⟨rc, out, err⟩
  | .timedOut => .error "subprocess.TimeoutExpired"
  | .exnRaised m => .error m

/-- `util.py` (`require_cmd`): raises `RuntimeError` when
`shutil.which cmd` returns `None`; the raised exception is modelled as
`Except.error`. -/
def requireCmd (cmd : String) (whichResult : Option String) : Except String Unit :=
  match whichResult with
  | none => .error ("Required command not found in PATH: " ++ cmd)
  | some _ => .ok ()

/-- Python's substring test `needle in hay`, on character lists. -/
def containsSubAux (needle : List Char) : List Char → Bool
  | [] => needle.isEmpty
  | c :: t => needle.isPrefixOf (c :: t) || containsSubAux needle t

/-- Python's substring test `needle in hay` for strings. -/
def strContains (hay needle : String) : Bool :=
  containsSubAux needle.data hay.data

/-! ## Diff engine: `gui.py` `DiffPreviewDialog.__init__` -/

/-- `gui.py` lines 67–69: `to_add = source_files - dest_files`,
`to_delete = dest_files - source_files`,
`to_overwrite = source_files & dest_files`. -/
def diffNames (source_files dest_files : Finset String) :
    Finset String × Finset String × Finset String :=
  (source_files \ dest_files, dest_files \ source_files, source_files ∩ dest_files)

/-- Claim C1: the diff computation over two finite name sets returns
exactly `(source − dest, dest − source, source ∩ dest)`; the three result
sets are pairwise disjoint, their union is `source ∪ dest`, and the
computation is a pure deterministic function (running it twice on the
same inputs yields identical results). -/
theorem diff_engine_contract (S D : Finset String) :
    diffNames S D = (S \ D, D \ S, S ∩ D)
    ∧ Disjoint (S \ D) (D \ S)
    ∧ Disjoint (S \ D) (S ∩ D)
    ∧ Disjoint (D \ S) (S ∩ D)
    ∧ (S \ D) ∪ (D \ S) ∪ (S ∩ D) = S ∪ D
    ∧ diffNames S D = diffNames S D := by
  refine ⟨rfl, ?_, ?_, ?_, ?_, rfl⟩
  · rw [Finset.disjoint_left]
    intro a ha hb
    rw [Finset.mem_sdiff] at ha hb
    exact ha.2 hb.1
  · rw [Finset.disjoint_left]
    intro a ha hb
    rw [Finset.mem_sdiff] at ha
    rw [Finset.mem_inter] at hb
    exact ha.2 hb.2
  · rw [Finset.disjoint_left]
    intro a ha hb
    rw [Finset.mem_sdiff] at ha
    rw [Finset.mem_inter] at hb
    exact ha.2 hb.1
  · ext a
    simp only [Finset.mem_union, Finset.mem_sdiff, Finset.mem_inter]
    tauto

/-! ## Per-entry copy loops (`gui.py` `_do_push` and `_do_sync`)

Both loops issue one copy per entry and return on the first failure; the
result of a loop is the list of entries a copy was issued for, together
with the first failing entry (if any). -/

/-- The `for ... scp ... if not ok: return` loop shape shared by
`_do_push` and `_do_sync`: entries are attempted in order until the
first failure. -/
def runCopies (files : List String) (ok : String → Bool) :
    List String × Option String :=
  match files with
  | [] => ([], none)
  | f :: fs =>
      if ok f then
        ((runCopies fs ok).1.cons f, (runCopies fs ok).2)
      else ([f], some f)

theorem runCopies_all_ok (files : List String) (ok : String → Bool)
    (h : ∀ f ∈ files, ok f = true) : runCopies files ok = (files, none) := by
  induction files with
  | nil => rfl
  | cons f fs ih =>
      simp only [runCopies, h f (List.mem_cons_self f fs), if_pos]
      rw [ih (fun g hg => h g (List.mem_cons_of_mem f hg))]

theorem runCopies_first_fail (done rest : List String) (bad : String)
    (ok : String → Bool) (hdone : ∀ f ∈ done, ok f = true)
    (hbad : ok bad = false) :
    runCopies (done ++ bad :: rest) ok = (done ++ [bad], some bad) := by
  induction done with
  | nil => simp [runCopies, hbad]
  | cons f fs ih =>
      have hf : ok f = true := hdone f (List.mem_cons_self f fs)
      simp only [List.cons_append, runCopies, hf, if_pos, List.append_eq]
      rw [ih (fun g hg => hdone g (List.mem_cons_of_mem f hg))]

/-! ## Two-way merge: `gui.py` `SyncWorker._do_sync` -/

/-- The transport calls `_do_sync` can issue, in the order the code
makes them: the remote `ls` listing, the remote `mkdir -p`, and the two
directions of per-file `scp` copies.  The code contains no deleting or
overwriting call, which the action type records by having no such
constructor. -/
inductive SyncAction where
  | listRemote
  | mkdirRemote
  | copyToRemote (name : String)
  | copyToLocal (name : String)
deriving DecidableEq, Repr

/-- `gui.py` (`SyncWorker._do_sync`), starting from the two directory
snapshots it has computed (`local_files` from `local.iterdir()`,
`remote_files` from the parsed `ls` output).  `rR f` / `rL f` are the
`_run_cmd` triples returned by the `scp` call for file `f` towards the
remote / local side.  Returns the issued transport calls and the
`(success, message)` pair emitted through `signals.finished`. -/
def doSync (local_files remote_files : List String)
    (rR rL : String → Bool × String × String) :
    List SyncAction × (Bool × String) :=
  let localOnly := local_files.filter (fun f => !remote_files.contains f)
  let remoteOnly := remote_files.filter (fun f => !local_files.contains f)
  let r1 := runCopies localOnly (fun f => (rR f).1)
  match r1.2 with
  | some f =>
      (SyncAction.listRemote :: SyncAction.mkdirRemote ::
         r1.1.map SyncAction.copyToRemote,
       (false, "Failed to copy " ++ f ++ " to Mac: " ++ (rR f).2.2))
  | none =>
      let r2 := runCopies remoteOnly (fun f => (rL f).1)
      match r2.2 with
      | some f =>
          (SyncAction.listRemote :: SyncAction.mkdirRemote ::
             (r1.1.map SyncAction.copyToRemote ++ r2.1.map SyncAction.copyToLocal),
           (false, "Failed to copy " ++ f ++ " from Mac: " ++ (rL f).2.2))
      | none =>
          (SyncAction.listRemote :: SyncAction.mkdirRemote ::
             (r1.1.map SyncAction.copyToRemote ++ r2.1.map SyncAction.copyToLocal),
           if localOnly.length + remoteOnly.length = 0 then
             (true, "Already in sync!")
           else
             (true, "Synced: +" ++ toString localOnly.length ++ " to Mac, +"
               ++ toString remoteOnly.length ++ " to Windows"))

/-- Claim C2: in every run of Two-Way Merge with local snapshot `L` and
remote snapshot `R` in which the transport succeeds, every name in
`L − R` is copied to the remote side, every name in `R − L` is copied to
the local side, no copy in either direction is ever issued for a name in
`L ∩ R`, and when both differences are empty the run reports success
with the distinct "Already in sync!" outcome. -/
theorem twoWayMerge_spec (L R : List String)
    (rR rL : String → Bool × String × String)
    (hR : ∀ f, (rR f).1 = true) (hL : ∀ f, (rL f).1 = true) :
    (∀ n, n ∈ L → n ∉ R → SyncAction.copyToRemote n ∈ (doSync L R rR rL).1)
    ∧ (∀ n, n ∈ R → n ∉ L → SyncAction.copyToLocal n ∈ (doSync L R rR rL).1)
    ∧ (∀ n, n ∈ L → n ∈ R →
        SyncAction.copyToRemote n ∉ (doSync L R rR rL).1
        ∧ SyncAction.copyToLocal n ∉ (doSync L R rR rL).1)
    ∧ ((∀ n ∈ L, n ∈ R) → (∀ n ∈ R, n ∈ L) →
        (doSync L R rR rL).2 = (true, "Already in sync!")) := by
  have h1 : runCopies (L.filter (fun f => !R.contains f)) (fun f => (rR f).1)
      = (L.filter (fun f => !R.contains f), none) :=
    runCopies_all_ok _ _ (fun f _ => hR f)
  have h2 : runCopies (R.filter (fun f => !L.contains f)) (fun f => (rL f).1)
      = (R.filter (fun f => !L.contains f), none) :=
    runCopies_all_ok _ _ (fun f _ => hL f)
  simp only [doSync, h1, h2]
  refine ⟨?_, ?_, ?_, ?_⟩
  · intro n hn hnR
    simp only [List.mem_cons, List.mem_append, List.mem_map, List.mem_filter]
    refine Or.inr (Or.inr (Or.inl ⟨n, ⟨hn, ?_⟩, rfl⟩))
    simp [hnR]
  · intro n hn hnL
    simp only [List.mem_cons, List.mem_append, List.mem_map, List.mem_filter]
    refine Or.inr (Or.inr (Or.inr ⟨n, ⟨hn, ?_⟩, rfl⟩))
    simp [hnL]
  · intro n hnL hnR
    constructor
    · simp only [List.mem_cons, List.mem_append, List.mem_map, List.mem_filter]
      rintro (h | h | ⟨m, ⟨-, hm⟩, he⟩ | ⟨m, -, he⟩)
      · exact SyncAction.noConfusion h
      · exact SyncAction.noConfusion h
      · cases he; simp [hnR] at hm
      · exact SyncAction.noConfusion he
    · simp only [List.mem_cons, List.mem_append, List.mem_map, List.mem_filter]
      rintro (h | h | ⟨m, -, he⟩ | ⟨m, ⟨-, hm⟩, he⟩)
      · exact SyncAction.noConfusion h
      · exact SyncAction.noConfusion h
      · exact SyncAction.noConfusion he
      · cases he; simp [hnL] at hm
  · intro hLR hRL
    have e1 : L.filter (fun f => !R.contains f) = [] := by
      rw [List.filter_eq_nil_iff]
      intro a ha
      simp [hLR a ha]
    have e2 : R.filter (fun f => !L.contains f) = [] := by
      rw [List.filter_eq_nil_iff]
      intro a ha
      simp [hRL a ha]
    rw [e1, e2]
    simp [runCopies]

/-- Witness for C2 at the spec's concrete scenario:
local = {a.txt, b.txt}, remote = {b.txt, c.txt} with an all-succeeding
transport: a.txt goes to the remote side, c.txt to the local side, and no
copy in either direction is ever issued for b.txt. -/
theorem twoWayMerge_spec_witness :
    SyncAction.copyToRemote "a.txt" ∈
      (doSync ["a.txt", "b.txt"] ["b.txt", "c.txt"]
        (fun _ => (true, "", "")) (fun _ => (true, "", ""))).1
    ∧ SyncAction.copyToLocal "c.txt" ∈
      (doSync ["a.txt", "b.txt"] ["b.txt", "c.txt"]
        (fun _ => (true, "", "")) (fun _ => (true, "", ""))).1
    ∧ SyncAction.copyToRemote "b.txt" ∉
      (doSync ["a.txt", "b.txt"] ["b.txt", "c.txt"]
        (fun _ => (true, "", "")) (fun _ => (true, "", ""))).1
    ∧ SyncAction.copyToLocal "b.txt" ∉
      (doSync ["a.txt", "b.txt"] ["b.txt", "c.txt"]
        (fun _ => (true, "", "")) (fun _ => (true, "", ""))).1 := by
  have h := twoWayMerge_spec ["a.txt", "b.txt"] ["b.txt", "c.txt"]
    (fun _ => (true, "", "")) (fun _ => (true, "", ""))
    (fun _ => rfl) (fun _ => rfl)
  refine ⟨h.1 "a.txt" (by decide) (by decide),
          h.2.1 "c.txt" (by decide) (by decide),
          (h.2.2.1 "b.txt" (by decide) (by decide)).1,
          (h.2.2.1 "b.txt" (by decide) (by decide)).2⟩

/-! ## Claim C3: transport gateway error behavior

The repository contains two command runners.  `gui.py`'s
`SyncWorker._run_cmd` catches `TimeoutExpired` and every other exception
and always returns a triple.  `core.py`'s `_run` catches nothing, and
`util.py`'s `require_cmd` raises `RuntimeError` for an absent program,
so for those the exceptional conditions unwind into the caller. -/

/-- Claim C3, counterexample: the `core.py` gateway does raise.  A timed
out invocation makes `_run` propagate `subprocess.TimeoutExpired`
(modelled as an `Except.error` rather than an `Except.ok CmdResult`),
and `require_cmd` applied to a program absent from `PATH` raises
`RuntimeError` instead of returning a result. -/
theorem transport_raises_counterexample :
    coreRun RunEvent.timedOut = Except.error "subprocess.TimeoutExpired"
    ∧ (coreRun RunEvent.timedOut).isOk = false
    ∧ requireCmd "scp" none
        = Except.error ("Required command not found in PATH: " ++ "scp") :=
  ⟨rfl, rfl, rfl⟩

/-- Claim C3, amended: the GUI worker's transport gateway (`_run_cmd`)
returns a structured result and never raises — a non-zero exit is a
normal result `(false, out, err)`, a timeout is surfaced as the distinct
error-channel value `"Command timed out"`, and an absent program's
exception (like any other exception) is caught and surfaced as its
message in the error channel.  The `core.py` gateway `_run` propagates
the timeout exception, and `require_cmd` raises for a missing program. -/
theorem transport_gateway_amended :
    (∀ (rc : Int) (out err : String), rc ≠ 0 →
        runCmd (RunEvent.completed rc out err) = (false, out, err))
    ∧ (∀ out err : String,
        runCmd (RunEvent.completed 0 out err) = (true, out, err))
    ∧ runCmd RunEvent.timedOut = (false, "", "Command timed out")
    ∧ (∀ m : String, runCmd (RunEvent.exnRaised m) = (false, "", m)) := by
  refine ⟨?_, fun out err => rfl, rfl, fun m => rfl⟩
  intro rc out err h
  simp [runCmd, h]

/-- Witness for the amended C3 at a concrete non-zero exit status. -/
theorem transport_gateway_amended_witness :
    runCmd (RunEvent.completed 255 "" "ssh: connect refused") = (false, "", "ssh: connect refused") :=
  transport_gateway_amended.1 255 "" "ssh: connect refused" (by decide)

/-! ## Mirror push: `gui.py` `SyncWorker._do_push` -/

/-- The transport calls `_do_push` can issue: the single trash-and-mkdir
remote command, then one `scp` per local entry.  The code issues no
delete and no rollback call, which the action type records by having no
such constructor. -/
inductive PushAction where
  | trashPrep
  | copy (name : String)
deriving DecidableEq, Repr

/-- `gui.py` (`SyncWorker._do_push`): check the local path, issue the
remote trash-preparation command, report an explicit success on an empty
source, then copy each entry individually, returning on the first
failure.  `localExists` is the result of `local.exists()`, `files` the
entry names from `local.iterdir()`, `trashRes` and `copyRes f` the
`_run_cmd` triples of the respective invocations. -/
def doPush (localExists : Bool) (localPath : String) (files : List String)
    (trashRes : Bool × String × String)
    (copyRes : String → Bool × String × String) :
    List PushAction × (Bool × String) :=
  if !localExists then ([], (false, "Local path not found: " ++ localPath))
  else if !trashRes.1 then
    ([PushAction.trashPrep], (false, "Failed to prepare remote folder: " ++ trashRes.2.2))
  else if files.isEmpty then
    ([PushAction.trashPrep], (true, "Pushed: (empty folder)"))
  else
    match (runCopies files (fun f => (copyRes f).1)).2 with
    | some f =>
        (PushAction.trashPrep ::
           (runCopies files (fun f => (copyRes f).1)).1.map PushAction.copy,
         (false, "Push failed on " ++ f ++ ": " ++ (copyRes f).2.2))
    | none =>
        (PushAction.trashPrep ::
           (runCopies files (fun f => (copyRes f).1)).1.map PushAction.copy,
         (true, "Synced: " ++ toString files.length ++ " items → Mac"))

/-- Claim C4: in every Mirror Push run over entries
`done ++ bad :: rest` whose copy of `bad` is the first to fail, the
issued calls are exactly the trash preparation followed by one copy per
entry of `done` and one for `bad` (each earlier entry got exactly one
copy, nothing was issued for entries after `bad`, and no rollback call
exists), and the run terminates with a failure outcome whose message
names `bad` and carries the transport error. -/
theorem push_partial_failure (localPath : String) (done rest : List String)
    (bad : String) (trashRes : Bool × String × String)
    (copyRes : String → Bool × String × String)
    (hnodup : (done ++ bad :: rest).Nodup)
    (htrash : trashRes.1 = true)
    (hdone : ∀ f ∈ done, (copyRes f).1 = true)
    (hbad : (copyRes bad).1 = false) :
    (doPush true localPath (done ++ bad :: rest) trashRes copyRes).1
        = PushAction.trashPrep :: (done ++ [bad]).map PushAction.copy
    ∧ (∀ f ∈ done,
        (doPush true localPath (done ++ bad :: rest) trashRes copyRes).1.count
          (PushAction.copy f) = 1)
    ∧ (∀ f ∈ rest,
        PushAction.copy f ∉
          (doPush true localPath (done ++ bad :: rest) trashRes copyRes).1)
    ∧ (doPush true localPath (done ++ bad :: rest) trashRes copyRes).2
        = (false, "Push failed on " ++ bad ++ ": " ++ (copyRes bad).2.2) := by
  have hrc := runCopies_first_fail done rest bad (fun f => (copyRes f).1) hdone hbad
  have hne : (done ++ bad :: rest).isEmpty = false := by
    cases done <;> simp [List.isEmpty]
  have hred : doPush true localPath (done ++ bad :: rest) trashRes copyRes
      = (PushAction.trashPrep :: (done ++ [bad]).map PushAction.copy,
         (false, "Push failed on " ++ bad ++ ": " ++ (copyRes bad).2.2)) := by
    rw [doPush]
    simp [htrash, hne, hrc]
  have hdisj : done.Disjoint (bad :: rest) := List.disjoint_of_nodup_append hnodup
  have hbadrest : bad ∉ rest :=
    (List.nodup_cons.mp (hnodup.of_append_right)).1
  have hdnd : done.Nodup := hnodup.of_append_left
  refine ⟨by rw [hred], ?_, ?_, by rw [hred]⟩
  · intro f hf
    rw [hred]
    have hfb : f ≠ bad := by
      intro he
      exact hdisj hf (he ▸ List.mem_cons_self bad rest)
    rw [List.count_cons_of_ne (by simp), List.map_append,
        List.count_append]
    rw [List.count_map_of_injective _ PushAction.copy
          (fun a b h => by cases h; rfl) f]
    have : ((([bad]).map PushAction.copy).count (PushAction.copy f)) = 0 := by
      simp [List.count_eq_zero, hfb]
    rw [this, List.count_eq_one_of_mem hdnd hf]
  · intro f hf
    rw [hred]
    intro hmem
    rcases List.mem_cons.mp hmem with h | h
    · exact PushAction.noConfusion h
    · rcases List.mem_map.mp h with ⟨g, hg, he⟩
      cases he
      rcases List.mem_append.mp hg with h | h
      · exact hdisj h (List.mem_cons_of_mem bad hf)
      · rw [List.mem_singleton.mp h] at hf
        exact hbadrest hf

/-- Witness for C4 at the spec's simulation: three entries where the
transport fails on the second — one entry copied before it, the failure
message naming the second entry, and nothing issued for the third. -/
theorem push_partial_failure_witness :
    (doPush true "C:/src" (["a.txt"] ++ "b.txt" :: ["c.txt"]) (true, "", "")
        (fun f => if f == "b.txt" then (false, "", "scp: connection lost")
                  else (true, "", ""))).1
      = PushAction.trashPrep :: (["a.txt"] ++ ["b.txt"]).map PushAction.copy
    ∧ (doPush true "C:/src" (["a.txt"] ++ "b.txt" :: ["c.txt"]) (true, "", "")
        (fun f => if f == "b.txt" then (false, "", "scp: connection lost")
                  else (true, "", ""))).2
      = (false, "Push failed on " ++ "b.txt" ++ ": " ++
          ((fun f => if f == "b.txt" then ((false : Bool), "", "scp: connection lost")
                     else (true, "", "")) "b.txt").2.2) := by
  have h := push_partial_failure "C:/src" ["a.txt"] ["c.txt"] "b.txt" (true, "", "")
    (fun f => if f == "b.txt" then (false, "", "scp: connection lost")
              else (true, "", ""))
    (by decide) rfl (by decide) (by decide)
  exact ⟨h.1, h.2.2.2⟩

/-! ## Bootstrap: `gui.py` `SyncWorker._do_full_setup` -/

/-- Python's `a or b` on strings (`err or out` in `gui.py`). -/
def pyOrStr (a b : String) : String := if a == "" then b else a

/-- `gui.py` (`SyncWorker._do_full_setup`): generate a key pair when the
private key file is absent (aborting on failure), install the public key
remotely, and on an installation result of exit 0 with the `SETUP_OK`
sentinel, re-verify passwordless connectivity; only a verification
result of exit 0 containing `KEY_OK` yields overall success.
`keyExists` is `key_path.exists()`; the three triples are the `_run_cmd`
results of the keygen, installation, and verification invocations. -/
def doFullSetup (keyExists : Bool)
    (keygenRes installRes verifyRes : Bool × String × String) :
    Bool × String :=
  if !keyExists && !keygenRes.1 then
    (false, "Failed to generate key: " ++ keygenRes.2.2)
  else if installRes.1 && strContains installRes.2.1 "SETUP_OK" then
    if verifyRes.1 && strContains verifyRes.2.1 "KEY_OK" then
      (true, "Setup complete!")
    else
      (false, "Key installed but verification failed: " ++ verifyRes.2.2)
  else
    (false, "Failed to install key: " ++ pyOrStr installRes.2.2 installRes.2.1)

/-- Claim C5: whenever the key-installation step succeeds (exit status 0
and the `SETUP_OK` installation sentinel in its output) but the final
passwordless verification does not (its result is not exit 0 with
`KEY_OK` in the output), the bootstrap reports overall failure with the
verification error attached to its message. -/
theorem bootstrap_verification_gate (keyExists : Bool)
    (keygenRes installRes verifyRes : Bool × String × String)
    (hkey : keyExists = true ∨ keygenRes.1 = true)
    (hinst : installRes.1 = true)
    (hsent : strContains installRes.2.1 "SETUP_OK" = true)
    (hver : ¬(verifyRes.1 = true ∧ strContains verifyRes.2.1 "KEY_OK" = true)) :
    doFullSetup keyExists keygenRes installRes verifyRes
      = (false, "Key installed but verification failed: " ++ verifyRes.2.2) := by
  have h1 : (!keyExists && !keygenRes.1) = false := by
    rcases hkey with h | h <;> simp [h]
  have h2 : (installRes.1 && strContains installRes.2.1 "SETUP_OK") = true := by
    simp [hinst, hsent]
  have h3 : (verifyRes.1 && strContains verifyRes.2.1 "KEY_OK") = false := by
    cases hv : verifyRes.1 with
    | false => simp
    | true =>
        cases hc : strContains verifyRes.2.1 "KEY_OK" with
        | false => simp [hc]
        | true => exact absurd ⟨hv, hc⟩ hver
  simp [doFullSetup, h1, h2, h3]

/-- Witness for C5 at the spec's simulation: install step exits 0 with
the sentinel, verification step fails — overall `success = false` with
the verification error in the message. -/
theorem bootstrap_verification_gate_witness :
    doFullSetup true (true, "", "")
        (true, "ok SETUP_OK", "")
        (false, "", "Permission denied, please try again.")
      = (false, "Key installed but verification failed: "
          ++ "Permission denied, please try again.") := by
  exact bootstrap_verification_gate true (true, "", "")
    (true, "ok SETUP_OK", "") (false, "", "Permission denied, please try again.")
    (Or.inl rfl) rfl (by decide) (by decide)

/-! ## Claim C6: duplicate safety of the public-key installation

The effect of the two remote installation commands on the
authorized-keys file, modelled as its list of lines.

`gui.py` lines 244–249 issue
`grep -qxF '<pubkey>' ~/.ssh/authorized_keys 2>/dev/null || echo '<pubkey>' >> ~/.ssh/authorized_keys`:
the exact-line containment check guards the append, so the key is
appended only when absent.

`core.py` lines 111–117 (`install_pubkey`) issue
`echo <quoted pubkey> >> ~/.ssh/authorized_keys` with no containment
check: the append is unconditional. -/

/-- Effect on the authorized-keys lines of the GUI setup's guarded
append (`grep -qxF ... || echo ... >>`). -/
def guiInstallKeyEffect (pubkey : String) (authKeys : List String) : List String :=
  if pubkey ∈ authKeys then authKeys else authKeys ++ [pubkey]

/-- Effect on the authorized-keys lines of `core.py` `install_pubkey`'s
unguarded append (`echo ... >>`). -/
def coreInstallKeyEffect (pubkey : String) (authKeys : List String) : List String :=
  authKeys ++ [pubkey]

/-- Claim C6, counterexample: `core.py`'s `install_pubkey` is not
duplicate-safe.  Run against a remote file already containing exactly
the key, its remote command appends a second copy. -/
theorem install_duplicate_counterexample :
    coreInstallKeyEffect "ssh-ed25519 AAAAC3 parasync"
        ["ssh-ed25519 AAAAC3 parasync"]
      = ["ssh-ed25519 AAAAC3 parasync", "ssh-ed25519 AAAAC3 parasync"]
    ∧ (coreInstallKeyEffect "ssh-ed25519 AAAAC3 parasync"
        ["ssh-ed25519 AAAAC3 parasync"]).count "ssh-ed25519 AAAAC3 parasync" = 2 := by
  constructor
  · rfl
  · decide

/-- Claim C6, amended: the GUI setup flow's installation command is
duplicate-safe — its `grep -qxF` containment check runs before the
append, so against a file already containing the key nothing is
appended, and against a file not containing it the key is appended
once.  `core.py`'s `install_pubkey` appends unconditionally. -/
theorem install_duplicate_amended (pubkey : String) (authKeys : List String)
    (h : pubkey ∈ authKeys) :
    guiInstallKeyEffect pubkey authKeys = authKeys
    ∧ (guiInstallKeyEffect pubkey authKeys).count pubkey = authKeys.count pubkey := by
  rw [guiInstallKeyEffect, if_pos h]
  exact ⟨rfl, rfl⟩

/-- Witness for the amended C6: a file holding exactly the key is left
unchanged by the GUI installation command. -/
theorem install_duplicate_amended_witness :
    guiInstallKeyEffect "ssh-ed25519 AAAAC3 parasync"
        ["ssh-ed25519 AAAAC3 parasync"]
      = ["ssh-ed25519 AAAAC3 parasync"] :=
  (install_duplicate_amended "ssh-ed25519 AAAAC3 parasync"
    ["ssh-ed25519 AAAAC3 parasync"] (by decide)).1

/-! ## Claim C7: path check before transport in `push`

`gui.py`'s `_do_push` checks `local.exists()` before issuing anything
(embedded above as `doPush`).  `core.py`'s `push` (lines 57–74) first
calls `ensure_remote_dir` — a remote `ssh mkdir -p` — whenever the
profile's `ensure_remote_dir` flag is set, and only afterwards checks
`src.exists()`, returning `CmdResult(2, "", "Local path not found: ...")`. -/

/-- The transport calls `core.py`'s `push` can issue: the
`ensure_remote_dir` remote command and the `scp` copy. -/
inductive CoreCall where
  | sshEnsureDir (remotePath : String)
  | scpPush (src remotePath : String)
deriving DecidableEq, Repr

/-- `core.py` (`push`): issue the remote mkdir when the profile flag is
set, then check the (expanded) local source path, then issue the `scp`
copy.  `scpRes` is the copy's `CmdResult`. -/
def corePush (ensureRemoteDirFlag localExists : Bool)
    (src remotePath : String) (scpRes : CmdResult) :
    List CoreCall × CmdResult :=
  let pre := if ensureRemoteDirFlag then [CoreCall.sshEnsureDir remotePath] else []
  if !localExists then
    (pre, ⟨2, "", "Local path not found: " ++ src⟩)
  else
    (pre ++ [CoreCall.scpPush src remotePath], scpRes)

/-- Claim C7, counterexample: a `core.py` push with the profile's
`ensure_remote_dir` flag set (its default) and a nonexistent local
source issues the remote directory-creation command before producing
the path-not-found outcome, so the failure is not produced before every
transport invocation. -/
theorem push_pathcheck_counterexample :
    (corePush true false "C:/missing" "/Users/u/dst" ⟨0, "", ""⟩).1
      = [CoreCall.sshEnsureDir "/Users/u/dst"]
    ∧ CoreCall.sshEnsureDir "/Users/u/dst"
        ∈ (corePush true false "C:/missing" "/Users/u/dst" ⟨0, "", ""⟩).1
    ∧ (corePush true false "C:/missing" "/Users/u/dst" ⟨0, "", ""⟩).2
      = ⟨2, "", "Local path not found: " ++ "C:/missing"⟩ := by
  exact ⟨rfl, List.mem_singleton.mpr rfl, rfl⟩

/-- Claim C7, amended: every push invocation with a nonexistent local
source fails with a path-not-found outcome naming the missing path and
never issues a copy command.  The GUI push produces this failure before
any transport invocation; the `core.py` push does too when the
profile's `ensure_remote_dir` flag is off, but with the flag set it
issues the remote directory-creation command before the existence
check. -/
theorem push_pathcheck_amended :
    (∀ (localPath : String) (files : List String)
        (trashRes : Bool × String × String)
        (copyRes : String → Bool × String × String),
      doPush false localPath files trashRes copyRes
        = ([], (false, "Local path not found: " ++ localPath)))
    ∧ (∀ (src remotePath : String) (scpRes : CmdResult),
        corePush false false src remotePath scpRes
          = ([], ⟨2, "", "Local path not found: " ++ src⟩))
    ∧ (∀ (src remotePath : String) (scpRes : CmdResult),
        corePush true false src remotePath scpRes
          = ([CoreCall.sshEnsureDir remotePath],
             ⟨2, "", "Local path not found: " ++ src⟩))
    ∧ (∀ (flag : Bool) (src remotePath : String) (scpRes : CmdResult)
        (name : String),
        CoreCall.scpPush name remotePath ∉ (corePush flag false src remotePath scpRes).1) := by
  refine ⟨fun _ _ _ _ => rfl, fun _ _ _ => rfl, fun _ _ _ => rfl, ?_⟩
  intro flag src remotePath scpRes name hmem
  cases flag with
  | false => exact List.not_mem_nil _ hmem
  | true => exact CoreCall.noConfusion (List.mem_singleton.mp hmem)

/-- Witness for the amended C7: a GUI push and a core push against a
nonexistent local path, neither of which issues a copy command. -/
theorem push_pathcheck_amended_witness :
    doPush false "C:/gone" ["x.txt"] (true, "", "") (fun _ => (true, "", ""))
      = ([], (false, "Local path not found: " ++ "C:/gone"))
    ∧ CoreCall.scpPush "x.txt" "/Users/u/dst"
        ∉ (corePush true false "C:/gone" "/Users/u/dst" ⟨0, "", ""⟩).1 :=
  ⟨push_pathcheck_amended.1 "C:/gone" ["x.txt"] (true, "", "") (fun _ => (true, "", "")),
   push_pathcheck_amended.2.2.2 true "C:/gone" "/Users/u/dst" ⟨0, "", ""⟩ "x.txt"⟩

/-! ## Mirror pull outcome classification: `gui.py` `SyncWorker._do_pull` -/

/-- `gui.py` lines 325–330: classify the result of the single bulk
`scp remote:path/* local` call.  The empty-remote case is recognized by
the copy failing with `"No such file"` in the captured stderr or with
blank stderr (`not err.strip()`, i.e. every character of the stderr is
whitespace), which is how `scp`'s failed glob surfaces an entryless
remote directory. -/
def pullEmptyIndicator (err : String) : Bool :=
  strContains err "No such file" || err.data.all Char.isWhitespace

/-- `gui.py` (`SyncWorker._do_pull`, reporting step): `localName` is
`local.name`, `res` the `_run_cmd` triple of the bulk copy. -/
def pullReport (localName : String) (res : Bool × String × String) :
    Bool × String :=
  if res.1 then (true, "Synced from Mac → " ++ localName)
  else if pullEmptyIndicator res.2.2 then
    (true, "Pulled: (remote folder empty)")
  else (false, "Pull failed: " ++ res.2.2)

/-- Claim C8: Mirror Pull's bulk copy distinguishes its terminal cases —
a failed copy whose error text shows the entryless-remote condition is
reported as success with the explicit empty-result message; every other
failed or timed-out copy is reported as failure carrying the captured
error text; and no failing copy outside the empty-remote case is ever
reported as success. -/
theorem pull_terminal_cases (localName out err : String) :
    (pullEmptyIndicator err = true →
      pullReport localName (false, out, err) = (true, "Pulled: (remote folder empty)"))
    ∧ (pullEmptyIndicator err = false →
      pullReport localName (false, out, err) = (false, "Pull failed: " ++ err))
    ∧ pullReport localName (false, "", "Command timed out")
        = (false, "Pull failed: " ++ "Command timed out")
    ∧ ((pullReport localName (false, out, err)).1 = true →
        pullEmptyIndicator err = true) := by
  have hto : pullEmptyIndicator "Command timed out" = false := by decide
  refine ⟨?_, ?_, by simp [pullReport, hto], ?_⟩
  · intro h
    simp [pullReport, h]
  · intro h
    simp [pullReport, h]
  · intro h
    by_contra hc
    rw [Bool.not_eq_true] at hc
    simp [pullReport, hc] at h

/-- Witness for C8: an `scp` glob failure on an entryless remote
directory is reported as the explicit empty success; a timeout is
reported as failure with the captured error. -/
theorem pull_terminal_cases_witness :
    pullReport "dst" (false, "", "scp: /Users/u/src/*: No such file or directory")
        = (true, "Pulled: (remote folder empty)")
    ∧ pullReport "dst" (false, "", "Command timed out")
        = (false, "Pull failed: " ++ "Command timed out") := by
  have h := pull_terminal_cases "dst" "" "scp: /Users/u/src/*: No such file or directory"
  exact ⟨h.1 (by decide), h.2.2.1⟩

/-! ## Mirror pull trash step: `gui.py` `_do_pull` lines 303–318

Existing local destination entries are moved into `~/.parasync_trash`;
a name already present in the trash is disambiguated with
`f"{item.stem}_{i}{item.suffix}"` for `i = 1, 2, ...` until the name is
unused.  The trash directory is modelled as its list of entry names. -/

/-- Decimal rendering of a natural number, digit characters most
significant first — the semantics of Python's `str(i)` inside the
f-string. -/
def repChars (n : Nat) : List Char :=
  if _h : n < 10 then [Nat.digitChar n]
  else repChars (n / 10) ++ [Nat.digitChar (n % 10)]
termination_by n
decreasing_by exact Nat.div_lt_self (by omega) (by omega)

/-- Numeric value of a decimal digit character. -/
def charVal (c : Char) : Nat := c.toNat - 48

/-- Reads a decimal digit string back into a number; the left inverse
used to show `repChars` is injective. -/
def decodeChars (cs : List Char) : Nat :=
  cs.foldl (fun a c => 10 * a + charVal c) 0

theorem charVal_digitChar (d : Nat) (h : d < 10) :
    charVal (Nat.digitChar d) = d := by
  interval_cases d <;> rfl

theorem decodeChars_append_single (xs : List Char) (c : Char) :
    decodeChars (xs ++ [c]) = 10 * decodeChars xs + charVal c := by
  simp [decodeChars, List.foldl_append]

theorem decode_repChars (n : Nat) : decodeChars (repChars n) = n := by
  induction n using Nat.strong_induction_on with
  | _ n ih =>
      rw [repChars]
      split
      · next h => simp [decodeChars, charVal_digitChar n h]
      · next h =>
          rw [decodeChars_append_single,
              ih (n / 10) (Nat.div_lt_self (by omega) (by omega)),
              charVal_digitChar (n % 10) (Nat.mod_lt n (by omega))]
          exact Nat.div_add_mod n 10

/-- Python's `str(i)` as a Lean string. -/
def natStr (n : Nat) : String := String.mk (repChars n)

/-- `pathlib`'s last-dot search over a file name (`name.rfind('.')`);
`none` models Python's `-1`. -/
def rfindDotIdx (cs : List Char) : Option Nat :=
  match cs.reverse.findIdx? (fun c => c == '.') with
  | some j => some (cs.length - 1 - j)
  | none => none

/-- `pathlib.PurePath.stem`: the name up to the last dot, provided the
dot is neither leading nor trailing. -/
def pathStem (name : String) : String :=
  match rfindDotIdx name.data with
  | some i =>
      if 0 < i ∧ i < name.data.length - 1 then String.mk (name.data.take i)
      else name
  | none => name

/-- `pathlib.PurePath.suffix`: the extension from the last dot on,
provided the dot is neither leading nor trailing. -/
def pathSfx (name : String) : String :=
  match rfindDotIdx name.data with
  | some i =>
      if 0 < i ∧ i < name.data.length - 1 then String.mk (name.data.drop i)
      else ""
  | none => ""

/-- The collision-resolved trash name `f"{stem}_{i}{suffix}"`. -/
def suffixedName (stem sfx : String) (i : Nat) : String :=
  stem ++ "_" ++ natStr i ++ sfx

theorem suffixedName_inj (stem sfx : String) {a b : Nat}
    (h : suffixedName stem sfx a = suffixedName stem sfx b) : a = b := by
  have hd := congrArg String.data h
  simp only [suffixedName, String.data_append] at hd
  have h1 := List.append_cancel_right hd
  have h3 : (natStr a).data = (natStr b).data := List.append_cancel_left h1
  have h4 : repChars a = repChars b := h3
  have h5 := congrArg decodeChars h4
  rwa [decode_repChars, decode_repChars] at h5

/-- The numeric-suffix search space is infinite while the trash
directory is finite, so some suffixed name (with suffix at least 1, as
in the `while` loop) is unused. -/
theorem existsFresh (trash : List String) (stem sfx : String) :
    ∃ k, suffixedName stem sfx (k + 1) ∉ trash := by
  by_contra hall
  push_neg at hall
  have hinj : Function.Injective (fun k => suffixedName stem sfx (k + 1)) := by
    intro a b hab
    have := suffixedName_inj stem sfx hab
    omega
  have hsub : (Finset.range (trash.length + 1)).image
      (fun k => suffixedName stem sfx (k + 1)) ⊆ trash.toFinset := by
    intro x hx
    rcases Finset.mem_image.mp hx with ⟨k, -, rfl⟩
    exact List.mem_toFinset.mpr (hall k)
  have hcard := Finset.card_le_card hsub
  rw [Finset.card_image_of_injective _ hinj, Finset.card_range] at hcard
  have := List.toFinset_card_le trash
  omega

/-- `gui.py` lines 310–316: the destination chosen for one moved entry —
the entry's own name when it is not yet in the trash, otherwise
`f"{stem}_{i}{suffix}"` for the least `i ≥ 1` that is unused (the
`while dest.exists()` loop). -/
def freshDest (trash : List String) (name : String) : String :=
  if name ∈ trash then
    suffixedName (pathStem name) (pathSfx name)
      (Nat.find (existsFresh trash (pathStem name) (pathSfx name)) + 1)
  else name

theorem freshDest_not_mem (trash : List String) (name : String) :
    freshDest trash name ∉ trash := by
  unfold freshDest
  split
  · exact Nat.find_spec (existsFresh trash (pathStem name) (pathSfx name))
  · next h => exact h

/-- `gui.py` lines 308–317: move every destination entry into the trash
in order, resolving collisions with `freshDest`; returns the list of
(entry, trash name) moves and the final trash contents. -/
def moveAll : List String → List String → List (String × String) × List String
  | [], trash => ([], trash)
  | it :: rest, trash =>
      ((it, freshDest trash it) ::
         (moveAll rest (trash ++ [freshDest trash it])).1,
       (moveAll rest (trash ++ [freshDest trash it])).2)

theorem moveAll_spec (items : List String) :
    ∀ trash : List String, trash.Nodup →
      (moveAll items trash).1.map Prod.fst = items
      ∧ (moveAll items trash).2 = trash ++ (moveAll items trash).1.map Prod.snd
      ∧ (moveAll items trash).2.Nodup := by
  induction items with
  | nil => exact fun trash h => ⟨rfl, by simp [moveAll], h⟩
  | cons it rest ih =>
      intro trash h
      have hfresh := freshDest_not_mem trash it
      have hnd : (trash ++ [freshDest trash it]).Nodup := by
        simp [List.nodup_append, h, hfresh]
      obtain ⟨h1, h2, h3⟩ := ih (trash ++ [freshDest trash it]) hnd
      refine ⟨by simp [moveAll, h1], ?_, by simpa [moveAll] using h3⟩
      simp only [moveAll, List.map_cons]
      rw [h2]
      simp

/-- Claim C9: the trash step of Mirror Pull moves every existing
destination entry into the trash directory (it never deletes: the moves
pair each entry with the trash name it goes to), never overwrites a
previously trashed entry (the final trash contents extend the prior ones
and are duplicate-free), leaves all the step's entries in the trash
under distinct names, and pulling again with identical destination
filenames again produces a duplicate-free trash (the second round's
entries get fresh suffixed names). -/
theorem pull_trash_collision (items trash : List String) (htr : trash.Nodup) :
    (moveAll items trash).1.map Prod.fst = items
    ∧ (moveAll items trash).2 = trash ++ (moveAll items trash).1.map Prod.snd
    ∧ (moveAll items trash).2.Nodup
    ∧ (∀ t ∈ trash, t ∈ (moveAll items trash).2)
    ∧ (moveAll items (moveAll items trash).2).2.Nodup := by
  obtain ⟨h1, h2, h3⟩ := moveAll_spec items trash htr
  obtain ⟨-, -, h6⟩ := moveAll_spec items (moveAll items trash).2 h3
  refine ⟨h1, h2, h3, ?_, h6⟩
  intro t ht
  rw [h2]
  exact List.mem_append_left _ ht

/-- Witness for C9 at the spec's scenario: pulling twice in a row with
the same destination filename — after both rounds every entry was moved
and the trash holds pairwise distinct names (the second copy under a
suffixed name, the first not overwritten). -/
theorem pull_trash_collision_witness :
    (moveAll ["a.txt"] []).1.map Prod.fst = ["a.txt"]
    ∧ (moveAll ["a.txt"] []).2.Nodup
    ∧ (moveAll ["a.txt"] (moveAll ["a.txt"] []).2).2.Nodup := by
  have h := pull_trash_collision ["a.txt"] [] List.nodup_nil
  exact ⟨h.1, h.2.2.1, h.2.2.2.2⟩

/-! ## Configuration persistence: `config.py`

`save_config` writes `{"profiles": [asdict(prof) for prof in cfg.profiles]}`
as JSON; `load_config` parses the file and rebuilds
`[Profile(**item) for item in raw.get("profiles", [])]`, returning an
empty config when the file does not exist.  The embedding works at the
level of the JSON value tree written to and parsed from the file. -/

/-- A JSON value, as produced by `json.dumps` / consumed by `json.loads`. -/
inductive Json where
  | null
  | bool (b : Bool)
  | num (n : Int)
  | str (s : String)
  | arr (xs : List Json)
  | obj (fields : List (String × Json))
deriving Repr

/-- `config.py` (`Profile`): one remote endpoint, with the dataclass's
field order and defaults. -/
structure Profile where
  name : String
  host : String
  user : String
  port : Int := 22
  local_path : String := ""
  remote_path : String := ""
  identity_file : String := ""
  ensure_remote_dir : Bool := true
deriving DecidableEq, Repr

/-- `config.py` (`AppConfig`): the persisted profile list. -/
structure AppConfig where
  profiles : List Profile
deriving DecidableEq, Repr

/-- `dataclasses.asdict` on a `Profile`, rendered as a JSON object in
declaration order. -/
def profileToJson (p : Profile) : Json :=
  .obj [("name", .str p.name), ("host", .str p.host), ("user", .str p.user),
        ("port", .num p.port), ("local_path", .str p.local_path),
        ("remote_path", .str p.remote_path),
        ("identity_file", .str p.identity_file),
        ("ensure_remote_dir", .bool p.ensure_remote_dir)]

/-- Key lookup in a JSON object (Python dict access). -/
def jLookup (fields : List (String × Json)) (k : String) : Option Json :=
  (fields.find? (fun kv => kv.1 == k)).map Prod.snd

def asStr : Json → Option String
  | .str s => some s
  | _ => none

def asInt : Json → Option Int
  | .num n => some n
  | _ => none

def asBool : Json → Option Bool
  | .bool b => some b
  | _ => none

/-- The keyword names `Profile.__init__` accepts; any other key in the
item makes `Profile(**item)` raise `TypeError`. -/
def profileKeys : List String :=
  ["name", "host", "user", "port", "local_path", "remote_path",
   "identity_file", "ensure_remote_dir"]

/-- `Profile(**item)`: the three fields without defaults are required,
the rest fall back to the dataclass defaults; unexpected keys raise
(modelled as `none`). -/
def profileOfJson : Json → Option Profile
  | .obj fs =>
      if fs.all (fun kv => profileKeys.contains kv.1) then do
        let name ← (jLookup fs "name").bind asStr
        let host ← (jLookup fs "host").bind asStr
        let user ← (jLookup fs "user").bind asStr
        let port ← match jLookup fs "port" with
          | none => some 22
          | some j => asInt j
        let local_path ← match jLookup fs "local_path" with
          | none => some ""
          | some j => asStr j
        let remote_path ← match jLookup fs "remote_path" with
          | none => some ""
          | some j => asStr j
        let identity_file ← match jLookup fs "identity_file" with
          | none => some ""
          | some j => asStr j
        let ensure_remote_dir ← match jLookup fs "ensure_remote_dir" with
          | none => some true
          | some j => asBool j
        pure ⟨name, host, user, port, local_path, remote_path,
              identity_file, ensure_remote_dir⟩
      else none
  | _ => none

/-- The list comprehension `[Profile(**item) for item in ...]`; any bad
item raises (modelled as `none`). -/
def decodeProfiles : List Json → Option (List Profile)
  | [] => some []
  | j :: js =>
      match profileOfJson j, decodeProfiles js with
      | some p, some ps => some (p :: ps)
      | _, _ => none

/-- `config.py` (`save_config`): the JSON document written to the
config file. -/
def saveConfig (cfg : AppConfig) : Json :=
  .obj [("profiles", .arr (cfg.profiles.map profileToJson))]

/-- `config.py` (`load_config`): `none` models a missing file (empty
config); a present file is the parsed JSON document, read through
`raw.get("profiles", [])`. -/
def loadConfig : Option Json → Option AppConfig
  | none => some ⟨[]⟩
  | some j =>
      match j with
      | .obj fs =>
          match (jLookup fs "profiles").getD (.arr []) with
          | .arr items => (decodeProfiles items).map AppConfig.mk
          | _ => none
      | _ => none

theorem profileOfJson_profileToJson (p : Profile) :
    profileOfJson (profileToJson p) = some p := rfl

theorem decodeProfiles_map (ps : List Profile) :
    decodeProfiles (ps.map profileToJson) = some ps := by
  induction ps with
  | nil => rfl
  | cons p ps ih =>
      simp only [List.map_cons, decodeProfiles, profileOfJson_profileToJson, ih]

/-- Claim C10: saving a configuration and loading it back is an
identity on profiles — for every `AppConfig`, `load_config` applied to
the document written by `save_config` returns a config whose profile
list equals the saved one element for element and in the same order. -/
theorem config_roundtrip (cfg : AppConfig) :
    loadConfig (some (saveConfig cfg)) = some cfg
    ∧ (loadConfig (some (saveConfig cfg))).map AppConfig.profiles
        = some cfg.profiles := by
  have h : loadConfig (some (saveConfig cfg))
      = (decodeProfiles (cfg.profiles.map profileToJson)).map AppConfig.mk := rfl
  rw [h, decodeProfiles_map]
  exact ⟨rfl, rfl⟩

end ParaSync
